import Mathlib

/-!
Shallow embedding of `airbyte-ci/connectors/pipelines/pipelines/airbyte_ci/connectors/
generate_erd_schema/pipeline.py`: the catalog normalizer, the relation validator and
the DBML schema model builder, together with theorems settling the specification
claims about them.

Python strings are modelled through their character lists so that `str.split(".")`
and `str.startswith` become explicit recursive functions on `List Char`.
-/

namespace ErdPipeline

/-- Python `s.startswith(pre)`: `pre` is a prefix of the character sequence of `s`. -/
def pyStartswith (s pre : String) : Bool :=
  pre.data.isPrefixOf s.data

/-- Python `split(".")` on a character list: splits at every `'.'`, keeping empty
segments, and always returns at least one segment (`"".split(".") == [""]`). -/
def splitOnDot : List Char → List (List Char)
  | [] => [[]]
  | c :: cs =>
    match splitOnDot cs with
    | [] => [[]]
    | h :: t => if c = '.' then [] :: h :: t else (c :: h) :: t

/-- Python `v.split(".")` lifted back to strings. -/
def pySplitDot (v : String) : List String :=
  (splitOnDot v.data).map (fun l => String.mk l)

/-- Python `v.split(".")[0]`: the target-table component of a relation value. -/
def refTableOf (v : String) : String :=
  String.mk ((splitOnDot v.data).headD [])

/-- The `"type"` field of a JSON-schema property: `Union[str, List[str]]`. -/
abbrev TypeDesc := Sum String (List String)

/-- A JSON-schema property definition as seen by `dpath.search(.., ["**"], ..)`:
its own optional `"type"` field and the dict nodes nested anywhere inside it. -/
inductive PropertySchema where
  | node : Option TypeDesc → List PropertySchema → PropertySchema

/-- Python `"array" in str(x)`-style containment for a type descriptor: for a bare
string, substring containment; for a list, `str(list)` quotes each element
separately, so the needle (all letters) occurs iff it occurs in some element. -/
def strContains (hay needle : String) : Bool :=
  decide (needle.data <:+: hay.data)

/-- The filter of `_normalize_schema_catalog`:
`"array" in str(x.get("type", "")) or "object" in str(x.get("type", ""))`. -/
def typeMatches : Option TypeDesc → Bool
  | none => false
  | some (Sum.inl s) => strContains s "array" || strContains s "object"
  | some (Sum.inr l) => l.any (fun s => strContains s "array" || strContains s "object")

mutual
/-- Whether a property definition, or any dict nested inside it, passes the
object/array filter — exactly the nodes `dpath.search(.., ["**"], afilter)` flags. -/
def matchesAnywhere : PropertySchema → Bool
  | .node t? children => typeMatches t? || anyChildMatches children
def anyChildMatches : List PropertySchema → Bool
  | [] => false
  | c :: rest => matchesAnywhere c || anyChildMatches rest
end

/-- One stream of the discovered catalog dict: its name, its top-level
`json_schema.properties` (insertion-ordered), and `source_defined_primary_key`,
which per the Airbyte protocol is an optional list of key *paths*. -/
structure JsonStream where
  name : String
  properties : List (String × PropertySchema)
  source_defined_primary_key : Option (List (List String))

/-- The discovered catalog dict: `{"streams": [...]}`. -/
structure JsonCatalog where
  streams : List JsonStream

/-- One entry of the proposed-relations mapping:
`{"name": <stream>, "relations": {<fk column>: "<table.column>", ...}}`. -/
structure RelStream where
  name : String
  relations : List (String × String)
deriving DecidableEq

/-- The proposed-relations dict: `{"streams": [...]}`. -/
structure RelationDict where
  streams : List RelStream

/-- The per-stream effect of `_normalize_schema_catalog`: pop every top-level
property for which the dpath search found a matching dict at any depth. -/
def normalizeStream (s : JsonStream) : JsonStream :=
  { s with properties := s.properties.filter (fun p => !(matchesAnywhere p.2)) }

/-- `GenerateErdSchema._normalize_schema_catalog`, together with its in-place
mutation: the source pops keys out of each stream's own `properties` dict and
returns the argument's `streams` list itself.  The first component is the state
of the caller's schema after the call, the second the returned value. -/
def normalize_schema_catalog (schema : JsonCatalog) : JsonCatalog × List JsonStream :=
  let streams := schema.streams.map normalizeStream
  (⟨streams⟩, streams)

/-- The loop body of `_remove_non_existing_relations` for one stream entry:
collect the target-table components of the relation values (`x.split(".")[0]`),
keep those absent from the catalog's stream names, and pop every relation whose
value `startswith` one of them. -/
def validateStreamRelations (all_streams_names : List String) (stream : RelStream) : RelStream :=
  let ref_tables := stream.relations.map (fun kv => refTableOf kv.2)
  let non_existing_streams := ref_tables.filter (fun t => !(all_streams_names.contains t))
  { stream with
    relations := stream.relations.filter (fun kv =>
      !(non_existing_streams.any (fun ne => pyStartswith kv.2 ne))) }

/-- `GenerateErdSchema._remove_non_existing_relations`: prune, per stream entry,
the relations aimed at tables absent from the discovered catalog.  (The source
mutates `relation_dict` in place and returns it; the returned value is modelled.) -/
def remove_non_existing_relations (discovered : JsonCatalog) (relationDict : RelationDict) :
    RelationDict :=
  let all_streams_names := discovered.streams.map (fun s => s.name)
  { streams := relationDict.streams.map (validateStreamRelations all_streams_names) }

/-- The source folder of the connector, as consulted by `GenerateDbmlSchema`:
whether a `manifest.yaml` exists and the stream names found in its `schemas`
folder (`_get_streams_from_schemas_folder`). -/
structure SourceFolder where
  hasManifest : Bool
  schemaStreams : List String

/-- `GenerateDbmlSchema._is_dynamic`: raises `NotImplementedError` when a manifest
exists, otherwise a stream is dynamic iff its name is not in the schemas folder. -/
def is_dynamic (sf : SourceFolder) (stream_name : String) : Except String Bool :=
  if sf.hasManifest then Except.error "NotImplementedError"
  else Except.ok (!(sf.schemaStreams.contains stream_name))

/-- A `pydbml` `Column`: name, resolved type and primary-key flag. -/
structure DbmlColumn where
  name : String
  type : String
  pk : Bool
deriving DecidableEq

/-- A `pydbml` `Index`: its subject columns and primary-key flag. -/
structure DbmlIndex where
  subjects : List DbmlColumn
  pk : Bool
deriving DecidableEq

/-- A `pydbml` `Table`: name, columns in insertion order, and indexes. -/
structure DbmlTable where
  name : String
  columns : List DbmlColumn
  indexes : List DbmlIndex
deriving DecidableEq

/-- A `pydbml` `Reference`.  `pydbml` stores the two `Column` objects; each column
belongs to the (unique, by `_get_column`'s duplicate check) table it was found in,
so the endpoint tables are recorded here by the names used for the lookup. -/
structure DbmlReference where
  type : String
  table1 : String
  col1 : DbmlColumn
  table2 : String
  col2 : DbmlColumn
deriving DecidableEq

/-- The schema model built by `GenerateDbmlSchema._run`: the database's tables and
references. -/
structure SchemaModel where
  tables : List DbmlTable
  refs : List DbmlReference
deriving DecidableEq

/-- `GenerateDbmlSchema._extract_type`: a bare string is returned as-is; from a
list, `types.remove("null")` drops the first `"null"` occurrence when present, and
anything but exactly one remaining entry is a `ValueError`. -/
def extract_type (property_type : TypeDesc) : Except String String :=
  match property_type with
  | Sum.inl s => Except.ok s
  | Sum.inr l =>
    let types := if l.contains "null" then l.erase "null" else l
    if types.length != 1 then
      Except.error "Expected only one type apart from null"
    else
      Except.ok (types.headD "")

/-- Python `==` between a key path (a list of strings) and a property name (a
string): values of different types, never equal. -/
def pyEqPathName (_path : List String) (_property_name : String) : Bool :=
  false

/-- Python `==` between `source_defined_primary_key` (an optional list of key
paths) and the one-element list `[property_name]`: `None == [..]` is `False`, and
two lists are equal iff they have equal lengths and pairwise-equal elements —
where each element comparison pits a key path against a name string. -/
def pyEqPkSingleton (pk : Option (List (List String))) (property_name : String) : Bool :=
  match pk with
  | none => false
  | some paths =>
    paths.length == 1 && (paths.zip [property_name]).all (fun p => pyEqPathName p.1 p.2)

/-- `GenerateDbmlSchema._is_pk`: `stream.source_defined_primary_key == [property_name]`. -/
def is_pk (stream : JsonStream) (property_name : String) : Bool :=
  pyEqPkSingleton stream.source_defined_primary_key property_name

/-- The `"type"` field of a property node (`property_information["type"]`,
a `KeyError` when absent). -/
def PropertySchema.typeField : PropertySchema → Option TypeDesc
  | .node t? _ => t?

/-- The column-construction loop of `GenerateDbmlSchema._run` (lines 238-245):
one `Column` per top-level property, in order, with the extracted type and the
`_is_pk` flag; a missing `"type"` key or a type-extraction failure aborts. -/
def buildColumns (stream : JsonStream) : List (String × PropertySchema) →
    Except String (List DbmlColumn)
  | [] => Except.ok []
  | (property_name, info) :: rest =>
    match info.typeField with
    | none => Except.error "KeyError: type"
    | some td =>
      match extract_type td with
      | Except.error e => Except.error e
      | Except.ok ty =>
        match buildColumns stream rest with
        | Except.error e => Except.error e
        | Except.ok cols =>
          Except.ok ({ name := property_name, type := ty, pk := is_pk stream property_name } :: cols)

/-- The per-stream table construction of `GenerateDbmlSchema._run` (lines 237-262):
build the columns, then, when the primary key is declared and has more than one
entry, reject nested key paths, resolve the composite-key columns and require at
least as many matches as key entries before attaching the primary-key `Index`. -/
def buildTable (stream : JsonStream) : Except String DbmlTable :=
  match buildColumns stream stream.properties with
  | Except.error e => Except.error e
  | Except.ok columns =>
    match stream.source_defined_primary_key with
    | none => Except.ok { name := stream.name, columns := columns, indexes := [] }
    | some pk =>
      if pk.length > 1 then
        if pk.any (fun key => key.length != 1) then
          Except.error "Does not support nested key as part of primary key"
        else
          let composite_key_columns :=
            pk.flatMap (fun key => columns.filter (fun column => key.contains column.name))
          if composite_key_columns.length < pk.length then
            Except.error "Unexpected error: missing PK column from dbml table"
          else
            Except.ok { name := stream.name, columns := columns,
                        indexes := [{ subjects := composite_key_columns, pk := true }] }
      else
        Except.ok { name := stream.name, columns := columns, indexes := [] }

/-- The stream loop of `GenerateDbmlSchema._run` (lines 232-263): skip dynamic
streams entirely, build a table for each remaining stream, abort on any error. -/
def buildTables (sf : SourceFolder) : List JsonStream → Except String (List DbmlTable)
  | [] => Except.ok []
  | stream :: rest =>
    match is_dynamic sf stream.name with
    | Except.error e => Except.error e
    | Except.ok true => buildTables sf rest
    | Except.ok false =>
      match buildTable stream with
      | Except.error e => Except.error e
      | Except.ok t =>
        match buildTables sf rest with
        | Except.error e => Except.error e
        | Except.ok ts => Except.ok (t :: ts)

/-- `GenerateDbmlSchema._get_column`: exact-match table lookup (0 matches or more
than 1 are errors), then exact-match column lookup in that table (same policy). -/
def get_column (tables : List DbmlTable) (table_name column_name : String) :
    Except String DbmlColumn :=
  match tables.filter (fun t => t.name == table_name) with
  | [] => Except.error "Could not find table"
  | [table] =>
    match table.columns.filter (fun c => c.name == column_name) with
    | [] => Except.error "Could not find column in table"
    | [column] => Except.ok column
    | _ :: _ :: _ => Except.error "Unexpected error: many columns found"
  | _ :: _ :: _ => Except.error "Unexpected error: many tables found"

/-- The inner relation loop of `GenerateDbmlSchema._run` (lines 266-286) for one
stream entry of `erd.json`: per relation, skip it when the source stream is
dynamic; split the value on `"."`, failing unless it has exactly two parts; skip
the relation when the target stream is dynamic; otherwise resolve both endpoint
columns and add a many-to-many `Reference`. -/
def processStreamRelations (sf : SourceFolder) (tables : List DbmlTable)
    (stream_name : String) : List (String × String) → Except String (List DbmlReference)
  | [] => Except.ok []
  | (column_name, relationship) :: rest =>
    match is_dynamic sf stream_name with
    | Except.error e => Except.error e
    | Except.ok true => processStreamRelations sf tables stream_name rest
    | Except.ok false =>
      match pySplitDot relationship with
      | [target_table_name, target_column_name] =>
        match is_dynamic sf target_table_name with
        | Except.error e => Except.error e
        | Except.ok true => processStreamRelations sf tables stream_name rest
        | Except.ok false =>
          match get_column tables stream_name column_name with
          | Except.error e => Except.error e
          | Except.ok c1 =>
            match get_column tables target_table_name target_column_name with
            | Except.error e => Except.error e
            | Except.ok c2 =>
              match processStreamRelations sf tables stream_name rest with
              | Except.error e => Except.error e
              | Except.ok refs =>
                Except.ok ({ type := "<>", table1 := stream_name, col1 := c1,
                             table2 := target_table_name, col2 := c2 } :: refs)
      | _ => Except.error "relationship to nested fields is not supported"

/-- The outer relation loop of `GenerateDbmlSchema._run` (line 265): process the
relations of every stream entry of `erd.json` in order. -/
def processRelations (sf : SourceFolder) (tables : List DbmlTable) :
    List RelStream → Except String (List DbmlReference)
  | [] => Except.ok []
  | rs :: rest =>
    match processStreamRelations sf tables rs.name rs.relations with
    | Except.error e => Except.error e
    | Except.ok refs =>
      match processRelations sf tables rest with
      | Except.error e => Except.error e
      | Except.ok more => Except.ok (refs ++ more)

/-- `GenerateDbmlSchema._run` on its two file inputs (the configured catalog and
the validated relations of `erd.json`): build the tables, then the references. -/
def buildModel (sf : SourceFolder) (catalog : JsonCatalog) (relStreams : List RelStream) :
    Except String SchemaModel :=
  match buildTables sf catalog.streams with
  | Except.error e => Except.error e
  | Except.ok tables =>
    match processRelations sf tables relStreams with
    | Except.error e => Except.error e
    | Except.ok refs => Except.ok { tables := tables, refs := refs }

/-! ### Helper lemmas -/

/-- The first `split(".")` segment of a value is one of its string prefixes. -/
theorem headD_splitOnDot_prefix (l : List Char) : (splitOnDot l).headD [] <+: l := by
  induction l with
  | nil => simp [splitOnDot]
  | cons c cs ih =>
    cases h : splitOnDot cs with
    | nil => simp [splitOnDot, h]
    | cons hd tl =>
      rw [h] at ih
      by_cases hc : c = '.'
      · simp [splitOnDot, h, hc]
      · simp only [splitOnDot, h, if_neg hc, List.headD_cons]
        exact (List.cons_prefix_cons).mpr ⟨rfl, by simpa using ih⟩

/-- Every relation value starts with its own target-table component. -/
theorem pyStartswith_refTableOf (v : String) : pyStartswith v (refTableOf v) = true := by
  have h := headD_splitOnDot_prefix v.data
  simpa [pyStartswith, refTableOf, List.isPrefixOf_iff_prefix] using h

/-- A relation kept by the validator has a target-table component that names an
existing stream: were it absent, that component would be one of the non-existing
names and it is a prefix of the relation's own value, so the relation would have
been popped. -/
theorem mem_validateStreamRelations_target_exists (names : List String) (s : RelStream)
    (kv : String × String) (h : kv ∈ (validateStreamRelations names s).relations) :
    refTableOf kv.2 ∈ names := by
  simp only [validateStreamRelations, List.mem_filter] at h
  obtain ⟨hmem, hpred⟩ := h
  by_contra hnot
  have hbad : (((s.relations.map (fun kv2 => refTableOf kv2.2)).filter
      (fun t => !(names.contains t))).any (fun ne => pyStartswith kv.2 ne)) = true := by
    rw [List.any_eq_true]
    refine ⟨refTableOf kv.2, ?_, pyStartswith_refTableOf kv.2⟩
    rw [List.mem_filter]
    exact ⟨List.mem_map_of_mem _ hmem, by simp [hnot]⟩
  rw [hbad] at hpred
  simp at hpred

/-- A stream entry all of whose relation targets exist is left unchanged by the
validator's loop body. -/
theorem validateStreamRelations_fixed (names : List String) (s : RelStream)
    (h : ∀ kv ∈ s.relations, refTableOf kv.2 ∈ names) :
    validateStreamRelations names s = s := by
  have hne : (s.relations.map (fun kv2 => refTableOf kv2.2)).filter
      (fun t => !(names.contains t)) = [] := by
    rw [List.filter_eq_nil_iff]
    intro t ht
    rw [List.mem_map] at ht
    obtain ⟨kv, hkv, rfl⟩ := ht
    simp [h kv hkv]
  simp only [validateStreamRelations]
  rw [hne]
  simp [List.filter_true]

/-- `_is_pk` is constantly false: it compares the optional list of key paths with
the one-element list holding the property name, and a path never equals a name. -/
theorem is_pk_eq_false (stream : JsonStream) (property_name : String) :
    is_pk stream property_name = false := by
  unfold is_pk pyEqPkSingleton
  cases stream.source_defined_primary_key with
  | none => rfl
  | some paths =>
    cases paths with
    | nil => rfl
    | cons p ps => simp [pyEqPathName]

/-- `list.remove("null")` agrees with dropping all `"null"`s when at most one
occurs. -/
theorem erase_null_of_count_le_one (l : List String) (h : l.count "null" ≤ 1) :
    l.erase "null" = l.filter (fun x => x != "null") := by
  induction l with
  | nil => rfl
  | cons b rest ih =>
    by_cases hb : b = "null"
    · subst hb
      rw [List.count_cons_self] at h
      have h0 : rest.count "null" = 0 := by omega
      have hnm : "null" ∉ rest := List.count_eq_zero.mp h0
      have hfix : rest.filter (fun x => x != "null") = rest := by
        rw [List.filter_eq_self]
        intro a ha
        simp only [bne_iff_ne, ne_eq]
        exact fun heq => hnm (heq ▸ ha)
      rw [List.erase_cons_head]
      simp [hfix]
    · have hcnt : rest.count "null" ≤ 1 := by
        rw [List.count_cons_of_ne (fun heq => hb heq.symm)] at h
        exact h
      rw [List.erase_cons_tail (by simp [hb])]
      simp [List.filter_cons, hb, ih hcnt]

/-! ### Claims -/

/-- C7 counterexample: the type descriptor `["null", "null"]` has zero non-null
type names, so per the claim resolution must raise a type-resolution error; the
code removes only the first `"null"` and returns `"null"` successfully. -/
theorem C7_counterexample :
    (["null", "null"].filter (fun x => x != "null")).length = 0 ∧
    extract_type (Sum.inr ["null", "null"]) = Except.ok "null" :=
  ⟨by decide, by rfl⟩

/-- C7 (amended): a bare string type descriptor is returned as-is; from a list,
one occurrence of `"null"` is removed when present, the sole remaining entry is
returned, and a type-resolution error is raised exactly when the remainder does
not have exactly one entry; when `"null"` occurs at most once this coincides with
counting the non-null type names. -/
theorem C7_extract_type_spec (s : String) (t : List String) :
    extract_type (Sum.inl s) = Except.ok s ∧
    ((t.erase "null").length = 1 →
      extract_type (Sum.inr t) = Except.ok ((t.erase "null").headD "")) ∧
    ((t.erase "null").length ≠ 1 →
      extract_type (Sum.inr t) = Except.error "Expected only one type apart from null") ∧
    (t.count "null" ≤ 1 → t.erase "null" = t.filter (fun x => x != "null")) := by
  have hif : (if "null" ∈ t then t.erase "null" else t) = t.erase "null" := by
    by_cases hm : "null" ∈ t
    · simp [hm]
    · simp [hm, List.erase_of_not_mem hm]
  refine ⟨rfl, ?_, ?_, erase_null_of_count_le_one t⟩
  · intro h1
    simp [extract_type, hif, h1]
  · intro h1
    simp [extract_type, hif, h1]

/-- C7 witness: the amended statement applied at a bare string, at
`["null", "string"]` (success) and at `["integer", "string"]` (error). -/
theorem C7_witness :
    extract_type (Sum.inl "integer") = Except.ok "integer" ∧
    extract_type (Sum.inr ["null", "string"]) = Except.ok "string" ∧
    extract_type (Sum.inr ["integer", "string"]) =
      Except.error "Expected only one type apart from null" ∧
    ["null", "string"].erase "null" = ["null", "string"].filter (fun x => x != "null") := by
  refine ⟨(C7_extract_type_spec "integer" []).1, ?_, ?_, ?_⟩
  · have h := (C7_extract_type_spec "integer" ["null", "string"]).2.1 (by decide)
    rw [(by decide : (["null", "string"].erase "null").headD "" = "string")] at h
    exact h
  · exact (C7_extract_type_spec "integer" ["integer", "string"]).2.2.1 (by decide)
  · exact (C7_extract_type_spec "integer" ["null", "string"]).2.2.2 (by decide)

def streamC5 : JsonStream :=
  { name := "users", properties := [("id", .node (some (Sum.inl "integer")) [])],
    source_defined_primary_key := some [["id"]] }

/-- C5: a stream declaring the singleton primary key `[["id"]]` and a property
`"id"` is built with the `"id"` column's primary-key flag `false` (and no index):
`_is_pk` compares the list of key paths `[["id"]]` with `["id"]`, and a key path
(a list) never equals a property name (a string), so the flag is never set —
contradicting the claim that the flag is true for singleton primary keys. -/
theorem C5_singleton_pk_never_flagged :
    streamC5.source_defined_primary_key = some [["id"]] ∧
    is_pk streamC5 "id" = false ∧
    buildTable streamC5 =
      Except.ok { name := "users",
                  columns := [{ name := "id", type := "integer", pk := false }],
                  indexes := [] } :=
  ⟨rfl, rfl, rfl⟩

def catC3 : JsonCatalog :=
  { streams := [{ name := "s", properties := [("a", .node (some (Sum.inl "object")) [])],
                  source_defined_primary_key := none }] }

/-- C3 counterexample: on a catalog whose stream has one object-typed property,
the caller's catalog after the call differs from its value before the call — the
property map of the stream lost the key `"a"` — so the normalizer does have a
side effect on its argument. -/
theorem C3_counterexample :
    (normalize_schema_catalog catC3).1.streams.map (fun s => s.properties.map Prod.fst) ≠
      catC3.streams.map (fun s => s.properties.map Prod.fst) := by
  decide

/-- C3 (amended): the normalizer mutates its argument in place: after the call
the caller's streams are exactly the returned streams (the return value aliases
the argument's own `streams` list), stream names and primary-key membership are
unchanged, and each stream's property map has lost exactly the properties whose
definitions contain an object- or array-typed dict. -/
theorem C3_normalizer_mutates_in_place (schema : JsonCatalog) :
    (normalize_schema_catalog schema).1.streams = (normalize_schema_catalog schema).2 ∧
    (normalize_schema_catalog schema).2.map (fun s => s.name) =
      schema.streams.map (fun s => s.name) ∧
    (normalize_schema_catalog schema).2.map (fun s => s.source_defined_primary_key) =
      schema.streams.map (fun s => s.source_defined_primary_key) ∧
    (normalize_schema_catalog schema).2.map (fun s => s.properties) =
      schema.streams.map (fun s => s.properties.filter (fun p => !(matchesAnywhere p.2))) := by
  refine ⟨rfl, ?_, ?_, ?_⟩ <;>
    simp [normalize_schema_catalog, normalizeStream, List.map_map, Function.comp]

def streamC8 : JsonStream :=
  { name := "s",
    properties := [("a", .node (some (Sum.inl "string")) [.node (some (Sum.inl "object")) []])],
    source_defined_primary_key := none }

def catC8 : JsonCatalog := { streams := [streamC8] }

/-- C8 counterexample: the property `"a"` has the scalar type descriptor
`"string"` — per the claim it must be retained — but a dict nested inside its
definition has type `"object"`, so the `dpath` search flags the top-level key and
the normalizer removes the property. -/
theorem C8_counterexample :
    typeMatches (streamC8.properties.headD ("", .node none [])).2.typeField = false ∧
    (normalize_schema_catalog catC8).2.map (fun s => s.properties.map Prod.fst) = [[]] :=
  ⟨by decide, by decide⟩

/-- C8 (amended): for each stream the normalizer's result keeps exactly the
top-level properties in whose definition no dict (the property's own dict
included, at any depth) has a type mentioning `"object"` or `"array"`; a property
whose whole definition tree carries only scalar types is retained. -/
theorem C8_normalizer_removes_matching_subtrees (schema : JsonCatalog) :
    ((normalize_schema_catalog schema).2.map (fun s => s.properties) =
      schema.streams.map (fun s => s.properties.filter (fun p => !(matchesAnywhere p.2)))) ∧
    ∀ s ∈ schema.streams, ∃ s2 ∈ (normalize_schema_catalog schema).2,
      s2.name = s.name ∧
      ∀ p, p ∈ s2.properties ↔ p ∈ s.properties ∧ matchesAnywhere p.2 = false := by
  constructor
  · simp [normalize_schema_catalog, normalizeStream, List.map_map, Function.comp]
  · intro s hs
    refine ⟨normalizeStream s, ?_, rfl, ?_⟩
    · simpa [normalize_schema_catalog] using List.mem_map_of_mem normalizeStream hs
    · intro p
      simp [normalizeStream, List.mem_filter]

/-- C8 witness: the amended statement applied to the one-stream catalog of the
counterexample. -/
theorem C8_witness :
    ∃ s2 ∈ (normalize_schema_catalog catC8).2,
      s2.name = streamC8.name ∧
      ∀ p, p ∈ s2.properties ↔ p ∈ streamC8.properties ∧ matchesAnywhere p.2 = false :=
  (C8_normalizer_removes_matching_subtrees catC8).2 streamC8 (List.mem_cons_self _ _)

def catC2 : JsonCatalog :=
  { streams := [{ name := "abc", properties := [], source_defined_primary_key := none }] }

def rdC2 : RelationDict :=
  { streams := [{ name := "s", relations := [("k1", "ab.x"), ("k2", "abc.id")] }] }

/-- C2 counterexample: the relation `"k2" → "abc.id"` has target-table component
`"abc"`, which names an existing stream of the catalog, yet the validator removes
it: the non-existing name `"ab"` (from `"k1" → "ab.x"`) is a string prefix of the
whole value `"abc.id"`, and removal matches by `startswith`, not by component
equality. -/
theorem C2_counterexample :
    refTableOf "abc.id" ∈ catC2.streams.map (fun s => s.name) ∧
    ("k2", "abc.id") ∈ (rdC2.streams.headD { name := "", relations := [] }).relations ∧
    (remove_non_existing_relations catC2 rdC2).streams.map (fun s => s.relations) = [[]] :=
  ⟨by decide, by decide, by decide⟩

/-- C2 (amended): the validator keeps, per stream entry, exactly the relation
entries whose value is not string-prefixed by any proposed target-table component
(of the same entry) that is absent from the catalog's stream names; every stream
key of the mapping is retained (possibly with an empty relation set). -/
theorem C2_validator_prunes_by_startswith (cat : JsonCatalog) (rd : RelationDict) :
    ((remove_non_existing_relations cat rd).streams.map (fun s => s.name) =
      rd.streams.map (fun s => s.name)) ∧
    ∀ s ∈ rd.streams, ∃ s2 ∈ (remove_non_existing_relations cat rd).streams,
      s2.name = s.name ∧
      ∀ kv, kv ∈ s2.relations ↔
        kv ∈ s.relations ∧
        ∀ t ∈ s.relations.map (fun kv2 => refTableOf kv2.2),
          t ∉ cat.streams.map (fun st => st.name) → pyStartswith kv.2 t = false := by
  constructor
  · simp [remove_non_existing_relations, validateStreamRelations, List.map_map, Function.comp]
  · intro s hs
    refine ⟨validateStreamRelations (cat.streams.map (fun st => st.name)) s, ?_, rfl, ?_⟩
    · simpa [remove_non_existing_relations] using
        List.mem_map_of_mem (validateStreamRelations (cat.streams.map (fun st => st.name))) hs
    · intro kv
      show kv ∈ List.filter _ s.relations ↔ _
      rw [List.mem_filter]
      apply and_congr_right
      intro _
      rw [Bool.not_eq_true', List.any_eq_false]
      constructor
      · intro hall t htm htn
        have h2 := hall t (List.mem_filter.mpr ⟨htm, by simp [htn]⟩)
        simpa using h2
      · intro hall t htf
        rw [List.mem_filter] at htf
        obtain ⟨htm, htc⟩ := htf
        have htn : t ∉ cat.streams.map (fun st => st.name) := by simpa using htc
        simp [hall t htm htn]

/-- C2 witness: the amended statement applied to the counterexample catalog and
mapping, where the surviving relation set of stream `"s"` is empty. -/
theorem C2_witness :
    ∃ s2 ∈ (remove_non_existing_relations catC2 rdC2).streams,
      s2.name = (rdC2.streams.headD { name := "", relations := [] }).name ∧
      ∀ kv, kv ∈ s2.relations ↔
        kv ∈ (rdC2.streams.headD { name := "", relations := [] }).relations ∧
        ∀ t ∈ (rdC2.streams.headD { name := "", relations := [] }).relations.map
            (fun kv2 => refTableOf kv2.2),
          t ∉ catC2.streams.map (fun st => st.name) → pyStartswith kv.2 t = false :=
  (C2_validator_prunes_by_startswith catC2 rdC2).2
    (rdC2.streams.headD { name := "", relations := [] }) (List.mem_cons_self _ _)

/-- C4: after one run of the validator every remaining relation's target-table
component names a stream of the catalog, and a second run with the same catalog
returns its input unchanged. -/
theorem C4_validator_sound_and_idempotent (cat : JsonCatalog) (rd : RelationDict) :
    (∀ s ∈ (remove_non_existing_relations cat rd).streams, ∀ kv ∈ s.relations,
        refTableOf kv.2 ∈ cat.streams.map (fun st => st.name)) ∧
    remove_non_existing_relations cat (remove_non_existing_relations cat rd) =
      remove_non_existing_relations cat rd := by
  constructor
  · intro s hs kv hkv
    simp only [remove_non_existing_relations, List.mem_map] at hs
    obtain ⟨s0, _, rfl⟩ := hs
    exact mem_validateStreamRelations_target_exists _ s0 kv hkv
  · simp only [remove_non_existing_relations]
    congr 1
    rw [List.map_map]
    apply List.map_congr_left
    intro s _
    show validateStreamRelations _ (validateStreamRelations _ s) = _
    exact validateStreamRelations_fixed _ _ (fun kv hkv =>
      mem_validateStreamRelations_target_exists _ s kv hkv)

def catC4 : JsonCatalog :=
  { streams := [{ name := "t", properties := [], source_defined_primary_key := none }] }

def rdC4 : RelationDict :=
  { streams := [{ name := "s", relations := [("k", "t.b")] }] }

/-- C4 witness: the statement applied to a mapping whose single relation targets
the existing stream `"t"`: the kept relation's target-table component is in the
catalog, and a second validator run changes nothing. -/
theorem C4_witness :
    refTableOf ("k", "t.b").2 ∈ catC4.streams.map (fun st => st.name) ∧
    remove_non_existing_relations catC4 (remove_non_existing_relations catC4 rdC4) =
      remove_non_existing_relations catC4 rdC4 :=
  ⟨(C4_validator_sound_and_idempotent catC4 rdC4).1
      { name := "s", relations := [("k", "t.b")] } (by decide) ("k", "t.b") (by decide),
   (C4_validator_sound_and_idempotent catC4 rdC4).2⟩

def sfC1 : SourceFolder := { hasManifest := false, schemaStreams := ["s"] }

def catC1 : JsonCatalog :=
  { streams := [{ name := "s",
                  properties := [("a", .node (some (Sum.inl "integer")) []),
                                 ("b", .node (some (Sum.inl "integer")) [])],
                  source_defined_primary_key := none }] }

def relsC1 : List RelStream := [{ name := "s", relations := [("a", "s.b")] }]

def modelC1 : SchemaModel :=
  { tables := [{ name := "s",
                 columns := [{ name := "a", type := "integer", pk := false },
                             { name := "b", type := "integer", pk := false }],
                 indexes := [] }],
    refs := [{ type := "<>", table1 := "s",
               col1 := { name := "a", type := "integer", pk := false },
               table2 := "s",
               col2 := { name := "b", type := "integer", pk := false } }] }

/-- C1 counterexample: a validated relation mapping column `"a"` of stream `"s"`
to `"s.b"` — the claim's `"<same stream>.<column>"` shape — is processed into a
`Reference` whose two endpoint tables are both `"s"`: the build succeeds and the
model contains a self-reference. -/
theorem C1_counterexample :
    buildModel sfC1 catC1 relsC1 = Except.ok modelC1 ∧
    ∃ r ∈ modelC1.refs, r.table1 = r.table2 :=
  ⟨rfl,
   ⟨{ type := "<>", table1 := "s", col1 := { name := "a", type := "integer", pk := false },
      table2 := "s", col2 := { name := "b", type := "integer", pk := false } },
    by decide⟩⟩

/-- C1 (amended): the builder performs no self-reference check: a validated
relation that maps a column of a non-dynamic stream to a target of the form
`"<same stream>.<column>"`, with both endpoint columns resolvable, yields a
`Reference` whose two endpoint tables are the same table. -/
theorem C1_self_reference_created (sf : SourceFolder) (tables : List DbmlTable)
    (s column_name target_col : String) (c1 c2 : DbmlColumn)
    (hdyn : is_dynamic sf s = Except.ok false)
    (hsplit : pySplitDot (s ++ "." ++ target_col) = [s, target_col])
    (hc1 : get_column tables s column_name = Except.ok c1)
    (hc2 : get_column tables s target_col = Except.ok c2) :
    processStreamRelations sf tables s [(column_name, s ++ "." ++ target_col)] =
      Except.ok [{ type := "<>", table1 := s, col1 := c1, table2 := s, col2 := c2 }] := by
  simp only [processStreamRelations, hdyn, hsplit, hc1, hc2]

/-- C1 witness: the amended statement applied to the concrete self-relation
`"a" → "s.b"` of stream `"s"`. -/
theorem C1_witness :
    processStreamRelations sfC1 modelC1.tables "s" [("a", "s" ++ "." ++ "b")] =
      Except.ok [{ type := "<>", table1 := "s",
                   col1 := { name := "a", type := "integer", pk := false },
                   table2 := "s",
                   col2 := { name := "b", type := "integer", pk := false } }] :=
  C1_self_reference_created sfC1 modelC1.tables "s" "a" "b" _ _ (by rfl) (by rfl) (by rfl) (by rfl)

/-- A table built by `buildTable` carries the stream's name. -/
theorem buildTable_name (stream : JsonStream) (t : DbmlTable)
    (h : buildTable stream = Except.ok t) : t.name = stream.name := by
  unfold buildTable at h
  repeat' split at h
  all_goals try (simp only [] at h; split at h)
  all_goals first
    | exact Except.noConfusion h
    | (injection h with h1; subst h1; rfl)

/-- Every table in the output of the stream loop belongs to a non-dynamic stream. -/
theorem buildTables_tables_not_dynamic (sf : SourceFolder) (streams : List JsonStream)
    (tables : List DbmlTable) (h : buildTables sf streams = Except.ok tables) :
    ∀ t ∈ tables, is_dynamic sf t.name = Except.ok false := by
  induction streams generalizing tables with
  | nil =>
    unfold buildTables at h
    injection h with h1
    subst h1
    intro t ht
    exact absurd ht (List.not_mem_nil t)
  | cons s rest ih =>
    unfold buildTables at h
    cases hdyn : is_dynamic sf s.name with
    | error e => rw [hdyn] at h; exact Except.noConfusion h
    | ok b =>
      rw [hdyn] at h
      cases b with
      | true => exact ih tables h
      | false =>
        cases hbt : buildTable s with
        | error e => rw [hbt] at h; exact Except.noConfusion h
        | ok tb =>
          rw [hbt] at h
          cases hrest : buildTables sf rest with
          | error e => rw [hrest] at h; exact Except.noConfusion h
          | ok ts =>
            rw [hrest] at h
            injection h with h1
            subst h1
            intro t ht
            rcases List.mem_cons.mp ht with rfl | hmem
            · rw [buildTable_name s t hbt]; exact hdyn
            · exact ih ts hrest t hmem

/-- Every reference produced from one stream entry's relations has a non-dynamic
source table and a non-dynamic target table. -/
theorem processStreamRelations_not_dynamic (sf : SourceFolder) (tables : List DbmlTable)
    (stream_name : String) (rels : List (String × String)) (refs : List DbmlReference)
    (h : processStreamRelations sf tables stream_name rels = Except.ok refs) :
    ∀ r ∈ refs, is_dynamic sf r.table1 = Except.ok false ∧
      is_dynamic sf r.table2 = Except.ok false := by
  induction rels generalizing refs with
  | nil =>
    unfold processStreamRelations at h
    injection h with h1
    subst h1
    intro r hr
    exact absurd hr (List.not_mem_nil r)
  | cons kv rest ih =>
    obtain ⟨column_name, relationship⟩ := kv
    unfold processStreamRelations at h
    cases hdynS : is_dynamic sf stream_name with
    | error e => rw [hdynS] at h; exact Except.noConfusion h
    | ok b =>
      rw [hdynS] at h
      cases b with
      | true => exact ih refs h
      | false =>
        cases hsplit : pySplitDot relationship with
        | nil => simp only [hsplit] at h; exact Except.noConfusion h
        | cons t1 ts =>
          cases ts with
          | nil => simp only [hsplit] at h; exact Except.noConfusion h
          | cons t2 ts2 =>
            cases ts2 with
            | cons t3 ts3 => simp only [hsplit] at h; exact Except.noConfusion h
            | nil =>
              simp only [hsplit] at h
              cases hdynT : is_dynamic sf t1 with
              | error e => simp only [hdynT] at h; exact Except.noConfusion h
              | ok bt =>
                simp only [hdynT] at h
                cases bt with
                | true => exact ih refs h
                | false =>
                  cases hc1 : get_column tables stream_name column_name with
                  | error e => simp only [hc1] at h; exact Except.noConfusion h
                  | ok c1 =>
                    simp only [hc1] at h
                    cases hc2 : get_column tables t1 t2 with
                    | error e => simp only [hc2] at h; exact Except.noConfusion h
                    | ok c2 =>
                      simp only [hc2] at h
                      cases hrest : processStreamRelations sf tables stream_name rest with
                      | error e => simp only [hrest] at h; exact Except.noConfusion h
                      | ok refs2 =>
                        simp only [hrest] at h
                        injection h with h1
                        subst h1
                        intro r hr
                        rcases List.mem_cons.mp hr with rfl | hmem
                        · exact ⟨hdynS, hdynT⟩
                        · exact ih refs2 hrest r hmem

/-- Every reference produced by the outer relation loop has non-dynamic endpoint
tables. -/
theorem processRelations_not_dynamic (sf : SourceFolder) (tables : List DbmlTable)
    (rels : List RelStream) (refs : List DbmlReference)
    (h : processRelations sf tables rels = Except.ok refs) :
    ∀ r ∈ refs, is_dynamic sf r.table1 = Except.ok false ∧
      is_dynamic sf r.table2 = Except.ok false := by
  induction rels generalizing refs with
  | nil =>
    unfold processRelations at h
    injection h with h1
    subst h1
    intro r hr
    exact absurd hr (List.not_mem_nil r)
  | cons rs rest ih =>
    unfold processRelations at h
    cases h1 : processStreamRelations sf tables rs.name rs.relations with
    | error e => rw [h1] at h; exact Except.noConfusion h
    | ok refs1 =>
      rw [h1] at h
      cases h2 : processRelations sf tables rest with
      | error e => rw [h2] at h; exact Except.noConfusion h
      | ok refs2 =>
        rw [h2] at h
        injection h with h3
        subst h3
        intro r hr
        rcases List.mem_append.mp hr with hm | hm
        · exact processStreamRelations_not_dynamic sf tables rs.name rs.relations refs1 h1 r hm
        · exact ih refs2 h2 r hm

/-- C9: a relation whose source stream is dynamic, or whose target stream is
dynamic, is skipped individually — processing the remaining relations exactly as
if the skipped one were absent, with no abort — and consequently every
`Reference` of a successfully built model has a non-dynamic source table and a
non-dynamic target table. -/
theorem C9_dynamic_relations_soft_skipped (sf : SourceFolder) (tables : List DbmlTable)
    (stream_name column_name v : String) (rest : List (String × String))
    (cat : JsonCatalog) (rels : List RelStream) (model : SchemaModel) :
    (is_dynamic sf stream_name = Except.ok true →
      processStreamRelations sf tables stream_name ((column_name, v) :: rest) =
        processStreamRelations sf tables stream_name rest) ∧
    (∀ t c, is_dynamic sf stream_name = Except.ok false → pySplitDot v = [t, c] →
      is_dynamic sf t = Except.ok true →
      processStreamRelations sf tables stream_name ((column_name, v) :: rest) =
        processStreamRelations sf tables stream_name rest) ∧
    (buildModel sf cat rels = Except.ok model →
      ∀ r ∈ model.refs, is_dynamic sf r.table1 = Except.ok false ∧
        is_dynamic sf r.table2 = Except.ok false) := by
  refine ⟨?_, ?_, ?_⟩
  · intro hdyn
    simp only [processStreamRelations, hdyn]
  · intro t c hdynS hsplit hdynT
    simp only [processStreamRelations, hdynS, hsplit, hdynT]
  · intro h r hr
    unfold buildModel at h
    cases ht : buildTables sf cat.streams with
    | error e => simp only [ht] at h; exact Except.noConfusion h
    | ok tbls =>
      simp only [ht] at h
      cases hp : processRelations sf tbls rels with
      | error e => simp only [hp] at h; exact Except.noConfusion h
      | ok refs =>
        simp only [hp] at h
        injection h with h1
        subst h1
        exact processRelations_not_dynamic sf tbls rels refs hp r hr

def sfC9 : SourceFolder := { hasManifest := false, schemaStreams := ["s", "t"] }

def catC9 : JsonCatalog :=
  { streams := [{ name := "s", properties := [("a", .node (some (Sum.inl "integer")) [])],
                  source_defined_primary_key := none },
                { name := "t", properties := [("b", .node (some (Sum.inl "integer")) [])],
                  source_defined_primary_key := none }] }

def relsC9 : List RelStream := [{ name := "s", relations := [("a", "t.b")] }]

def refC9 : DbmlReference :=
  { type := "<>", table1 := "s", col1 := { name := "a", type := "integer", pk := false },
    table2 := "t", col2 := { name := "b", type := "integer", pk := false } }

def modelC9 : SchemaModel :=
  { tables := [{ name := "s", columns := [{ name := "a", type := "integer", pk := false }],
                 indexes := [] },
               { name := "t", columns := [{ name := "b", type := "integer", pk := false }],
                 indexes := [] }],
    refs := [refC9] }

/-- C9 witness: a dynamic source stream `"d"` and a dynamic target `"d.x"` are
each skipped without error, and the reference of the concretely built model has
non-dynamic endpoints. -/
theorem C9_witness :
    (processStreamRelations sfC9 [] "d" [("a", "t.b")] =
      processStreamRelations sfC9 [] "d" []) ∧
    (processStreamRelations sfC9 [] "s" [("a", "d.x")] =
      processStreamRelations sfC9 [] "s" []) ∧
    (is_dynamic sfC9 refC9.table1 = Except.ok false ∧
      is_dynamic sfC9 refC9.table2 = Except.ok false) := by
  refine ⟨?_, ?_, ?_⟩
  · exact (C9_dynamic_relations_soft_skipped sfC9 [] "d" "a" "t.b" [] catC9 relsC9
      modelC9).1 (by rfl)
  · exact (C9_dynamic_relations_soft_skipped sfC9 [] "s" "a" "d.x" [] catC9 relsC9
      modelC9).2.1 "d" "x" (by rfl) (by rfl) (by rfl)
  · exact (C9_dynamic_relations_soft_skipped sfC9 [] "s" "a" "d.x" [] catC9 relsC9
      modelC9).2.2 (by rfl) refC9 (by decide)

/-- C10: a successfully built model contains no table for a dynamic stream:
every table of the model belongs to a non-dynamic stream name, and no table
carries the name of any dynamic stream of the catalog. -/
theorem C10_no_table_for_dynamic_stream (sf : SourceFolder) (cat : JsonCatalog)
    (rels : List RelStream) (model : SchemaModel)
    (h : buildModel sf cat rels = Except.ok model) :
    (∀ t ∈ model.tables, is_dynamic sf t.name = Except.ok false) ∧
    ∀ s ∈ cat.streams, is_dynamic sf s.name = Except.ok true →
      ∀ t ∈ model.tables, t.name ≠ s.name := by
  have htab : ∀ t ∈ model.tables, is_dynamic sf t.name = Except.ok false := by
    unfold buildModel at h
    cases ht : buildTables sf cat.streams with
    | error e => simp only [ht] at h; exact Except.noConfusion h
    | ok tbls =>
      simp only [ht] at h
      cases hp : processRelations sf tbls rels with
      | error e => simp only [hp] at h; exact Except.noConfusion h
      | ok refs =>
        simp only [hp] at h
        injection h with h1
        subst h1
        exact buildTables_tables_not_dynamic sf cat.streams tbls ht
  refine ⟨htab, ?_⟩
  intro s _ hdyn t ht heq
  have h1 := htab t ht
  rw [heq, hdyn] at h1
  injection h1 with h2
  exact Bool.noConfusion h2

def sfC10 : SourceFolder := { hasManifest := false, schemaStreams := ["a"] }

def streamC10d : JsonStream := { name := "d", properties := [], source_defined_primary_key := none }

def catC10 : JsonCatalog :=
  { streams := [{ name := "a", properties := [("x", .node (some (Sum.inl "integer")) [])],
                  source_defined_primary_key := none },
                streamC10d] }

def tableC10 : DbmlTable :=
  { name := "a", columns := [{ name := "x", type := "integer", pk := false }], indexes := [] }

def modelC10 : SchemaModel := { tables := [tableC10], refs := [] }

/-- C10 witness: building the two-stream catalog whose stream `"d"` is dynamic
yields a model whose only table is `"a"`, a non-dynamic name different from `"d"`. -/
theorem C10_witness :
    is_dynamic sfC10 tableC10.name = Except.ok false ∧ tableC10.name ≠ streamC10d.name := by
  have h := C10_no_table_for_dynamic_stream sfC10 catC10 [] modelC10 (by rfl)
  exact ⟨h.1 tableC10 (by decide),
    h.2 streamC10d (List.mem_cons_of_mem _ (List.mem_cons_self _ _)) (by rfl) tableC10 (by decide)⟩

/-- The columns built for a stream are named after its properties, in order. -/
theorem buildColumns_names (stream : JsonStream) (props : List (String × PropertySchema))
    (cols : List DbmlColumn) (h : buildColumns stream props = Except.ok cols) :
    cols.map (fun c => c.name) = props.map Prod.fst := by
  induction props generalizing cols with
  | nil =>
    unfold buildColumns at h
    injection h with h1
    subst h1
    rfl
  | cons p rest ih =>
    obtain ⟨pname, pinfo⟩ := p
    unfold buildColumns at h
    cases ht : pinfo.typeField with
    | none => simp only [ht] at h; exact Except.noConfusion h
    | some td =>
      simp only [ht] at h
      cases he : extract_type td with
      | error e => simp only [he] at h; exact Except.noConfusion h
      | ok ty =>
        simp only [he] at h
        cases hr : buildColumns stream rest with
        | error e => simp only [hr] at h; exact Except.noConfusion h
        | ok cols2 =>
          simp only [hr] at h
          injection h with h1
          subst h1
          simp [ih cols2 hr]

/-- No column built for a stream carries a primary-key flag. -/
theorem buildColumns_pk_false (stream : JsonStream) (props : List (String × PropertySchema))
    (cols : List DbmlColumn) (h : buildColumns stream props = Except.ok cols) :
    ∀ c ∈ cols, c.pk = false := by
  induction props generalizing cols with
  | nil =>
    unfold buildColumns at h
    injection h with h1
    subst h1
    intro c hc
    exact absurd hc (List.not_mem_nil c)
  | cons p rest ih =>
    obtain ⟨pname, pinfo⟩ := p
    unfold buildColumns at h
    cases ht : pinfo.typeField with
    | none => simp only [ht] at h; exact Except.noConfusion h
    | some td =>
      simp only [ht] at h
      cases he : extract_type td with
      | error e => simp only [he] at h; exact Except.noConfusion h
      | ok ty =>
        simp only [he] at h
        cases hr : buildColumns stream rest with
        | error e => simp only [hr] at h; exact Except.noConfusion h
        | ok cols2 =>
          simp only [hr] at h
          injection h with h1
          subst h1
          intro c hc
          rcases List.mem_cons.mp hc with rfl | hmem
          · exact is_pk_eq_false stream pname
          · exact ih cols2 hr c hmem

/-- `in` against a one-element key path is equality with that path's element. -/
theorem contains_singleton (k x : String) : ([k].contains x) = (x == k) := by
  cases h : x == k <;> simp_all [List.contains]

/-- With pairwise-distinct column names, a name filter selects at most one column. -/
theorem filter_name_len_le_one (cols : List DbmlColumn) (k : String)
    (hnd : (cols.map (fun c => c.name)).Nodup) :
    (cols.filter (fun c => c.name == k)).length ≤ 1 := by
  induction cols with
  | nil => simp
  | cons c cs ih =>
    rw [List.map_cons, List.nodup_cons] at hnd
    by_cases hc : c.name = k
    · have hnil : cs.filter (fun c2 => c2.name == k) = [] := by
        rw [List.filter_eq_nil_iff]
        intro c2 hc2 hbeq
        have : c2.name = k := by simpa using hbeq
        exact hnd.1 (by rw [hc, ← this]; exact List.mem_map_of_mem _ hc2)
      simp [List.filter_cons, hc, hnil]
    · simp only [List.filter_cons]
      rw [if_neg (by simpa using hc)]
      exact ih hnd.2

/-- A name absent from the columns selects nothing. -/
theorem filter_name_eq_nil (cols : List DbmlColumn) (k : String)
    (hk : k ∉ cols.map (fun c => c.name)) :
    cols.filter (fun c => c.name == k) = [] := by
  rw [List.filter_eq_nil_iff]
  intro c hc hbeq
  have hname : c.name = k := by simpa using hbeq
  exact hk (hname ▸ List.mem_map_of_mem (fun c => c.name) hc)

/-- With pairwise-distinct column names, a present name selects exactly its column. -/
theorem filter_name_eq_singleton (cols : List DbmlColumn) (k : String)
    (hnd : (cols.map (fun c => c.name)).Nodup) (hk : k ∈ cols.map (fun c => c.name)) :
    (cols.filter (fun c => c.name == k)).map (fun c => c.name) = [k] := by
  induction cols with
  | nil => exact absurd hk (List.not_mem_nil k)
  | cons c cs ih =>
    rw [List.map_cons, List.nodup_cons] at hnd
    by_cases hc : c.name = k
    · have hnil : cs.filter (fun c2 => c2.name == k) = [] := by
        apply filter_name_eq_nil
        rw [← hc]
        exact hnd.1
      simp [List.filter_cons, hc, hnil]
    · rcases List.mem_cons.mp hk with heq | hmem
      · exact absurd heq.symm hc
      · simp only [List.filter_cons]
        rw [if_neg (by simpa using hc)]
        exact ih hnd.2 hmem

/-- When every singleton key resolves, the composite-key columns are exactly the
keys' columns, in key order. -/
theorem composite_names (cols : List DbmlColumn) (pk : List (List String))
    (hnd : (cols.map (fun c => c.name)).Nodup)
    (hflat : ∀ key ∈ pk, key.length = 1)
    (hres : ∀ key ∈ pk, key.headD "" ∈ cols.map (fun c => c.name)) :
    (pk.flatMap (fun key => cols.filter (fun column => key.contains column.name))).map
        (fun c => c.name) = pk.map (fun key => key.headD "") := by
  induction pk with
  | nil => rfl
  | cons key rest ih =>
    obtain ⟨k, rfl⟩ := List.length_eq_one.mp (hflat key (List.mem_cons_self _ _))
    have hfc : cols.filter (fun column => [k].contains column.name) =
        cols.filter (fun c => c.name == k) := by
      apply List.filter_congr
      intro c _
      exact contains_singleton k c.name
    have hhead := filter_name_eq_singleton cols k hnd
      (by simpa using hres [k] (List.mem_cons_self _ _))
    simp only [List.flatMap_cons, List.map_append, hfc, hhead, List.map_cons, List.headD_cons]
    rw [ih (fun key2 h2 => hflat key2 (List.mem_cons_of_mem _ h2))
      (fun key2 h2 => hres key2 (List.mem_cons_of_mem _ h2))]
    rfl

/-- The composite-key column list never outnumbers the key entries. -/
theorem composite_length_le (cols : List DbmlColumn) (pk : List (List String))
    (hnd : (cols.map (fun c => c.name)).Nodup)
    (hflat : ∀ key ∈ pk, key.length = 1) :
    (pk.flatMap (fun key => cols.filter (fun column => key.contains column.name))).length ≤
      pk.length := by
  induction pk with
  | nil => simp
  | cons key rest ih =>
    obtain ⟨k, rfl⟩ := List.length_eq_one.mp (hflat key (List.mem_cons_self _ _))
    have hfc : cols.filter (fun column => [k].contains column.name) =
        cols.filter (fun c => c.name == k) := by
      apply List.filter_congr
      intro c _
      exact contains_singleton k c.name
    have hle := filter_name_len_le_one cols k hnd
    have hrest := ih (fun key2 h2 => hflat key2 (List.mem_cons_of_mem _ h2))
    simp only [List.flatMap_cons, List.length_append, List.length_cons, hfc]
    omega

/-- A missing singleton key makes the composite-key columns strictly fewer than
the key entries. -/
theorem composite_length_lt (cols : List DbmlColumn) (pk : List (List String))
    (hnd : (cols.map (fun c => c.name)).Nodup)
    (hflat : ∀ key ∈ pk, key.length = 1)
    (hmiss : ∃ key ∈ pk, key.headD "" ∉ cols.map (fun c => c.name)) :
    (pk.flatMap (fun key => cols.filter (fun column => key.contains column.name))).length <
      pk.length := by
  induction pk with
  | nil =>
    obtain ⟨key, hk, _⟩ := hmiss
    exact absurd hk (List.not_mem_nil key)
  | cons key rest ih =>
    obtain ⟨k, rfl⟩ := List.length_eq_one.mp (hflat key (List.mem_cons_self _ _))
    have hfc : cols.filter (fun column => [k].contains column.name) =
        cols.filter (fun c => c.name == k) := by
      apply List.filter_congr
      intro c _
      exact contains_singleton k c.name
    have hflat2 : ∀ key2 ∈ rest, key2.length = 1 :=
      fun key2 h2 => hflat key2 (List.mem_cons_of_mem _ h2)
    obtain ⟨key0, hk0, hmiss0⟩ := hmiss
    rcases List.mem_cons.mp hk0 with rfl | hmem
    · have hnil : cols.filter (fun c => c.name == k) = [] := by
        apply filter_name_eq_nil
        simpa using hmiss0
      have hle := composite_length_le cols rest hnd hflat2
      simp only [List.flatMap_cons, List.length_append, List.length_cons, hfc, hnil]
      simp only [List.length_nil]
      omega
    · have hlt := ih hflat2 ⟨key0, hmem, hmiss0⟩
      have hle := filter_name_len_le_one cols k hnd
      simp only [List.flatMap_cons, List.length_append, List.length_cons, hfc]
      omega

/-- C6: for a stream with a composite (size > 1) primary key of flat key paths:
when the columns build and every key name resolves to a column, the table is
built with exactly one index, flagged as primary, over exactly the resolved
key columns in key order, and no individual column is flagged primary; when some
key name has no column, the build fails with the fatal missing-PK-column error
and produces no table (hence no partial index). -/
theorem C6_composite_primary_key (stream : JsonStream) (pk : List (List String))
    (hpk : stream.source_defined_primary_key = some pk)
    (hlen : 1 < pk.length)
    (hflat : ∀ key ∈ pk, key.length = 1)
    (hnd : (stream.properties.map Prod.fst).Nodup) :
    (∀ cols, buildColumns stream stream.properties = Except.ok cols →
      (∀ key ∈ pk, key.headD "" ∈ stream.properties.map Prod.fst) →
      ∃ table, buildTable stream = Except.ok table ∧
        table.columns = cols ∧
        (∀ c ∈ table.columns, c.pk = false) ∧
        ∃ ix, table.indexes = [ix] ∧ ix.pk = true ∧
          ix.subjects.map (fun c => c.name) = pk.map (fun key => key.headD "")) ∧
    (∀ cols, buildColumns stream stream.properties = Except.ok cols →
      (∃ key ∈ pk, key.headD "" ∉ stream.properties.map Prod.fst) →
      buildTable stream = Except.error "Unexpected error: missing PK column from dbml table") := by
  have hany : (pk.any fun key => key.length != 1) = false := by
    rw [List.any_eq_false]
    intro key hkey
    simp [hflat key hkey]
  have hneg : ¬((pk.any fun key => key.length != 1) = true) := by
    simp [hany]
  constructor
  · intro cols hc hres
    have hnames := buildColumns_names stream stream.properties cols hc
    have hnd2 : (cols.map (fun c => c.name)).Nodup := by rw [hnames]; exact hnd
    have hres2 : ∀ key ∈ pk, key.headD "" ∈ cols.map (fun c => c.name) := by
      rw [hnames]; exact hres
    have hcomp := composite_names cols pk hnd2 hflat hres2
    have hclen : (pk.flatMap fun key =>
        cols.filter fun column => key.contains column.name).length = pk.length := by
      have h2 := congrArg List.length hcomp
      simpa using h2
    have hnotlt : ¬((pk.flatMap fun key =>
        cols.filter fun column => key.contains column.name).length < pk.length) := by omega
    refine ⟨{ name := stream.name, columns := cols,
              indexes := [{ subjects := (pk.flatMap (fun key =>
                cols.filter (fun column => key.contains column.name))), pk := true }] },
            ?_, rfl, buildColumns_pk_false stream stream.properties cols hc, ?_⟩
    · simp only [buildTable, hc, hpk]
      rw [if_pos hlen, if_neg hneg]
      rw [if_neg hnotlt]
    · exact ⟨_, rfl, rfl, hcomp⟩
  · intro cols hc hmiss
    have hnames := buildColumns_names stream stream.properties cols hc
    have hnd2 : (cols.map (fun c => c.name)).Nodup := by rw [hnames]; exact hnd
    have hmiss2 : ∃ key ∈ pk, key.headD "" ∉ cols.map (fun c => c.name) := by
      rw [hnames]; exact hmiss
    have hlt := composite_length_lt cols pk hnd2 hflat hmiss2
    simp only [buildTable, hc, hpk]
    rw [if_pos hlen, if_neg hneg]
    rw [if_pos hlt]

def streamC6 : JsonStream :=
  { name := "t",
    properties := [("a", .node (some (Sum.inl "integer")) []),
                   ("b", .node (some (Sum.inl "string")) [])],
    source_defined_primary_key := some [["a"], ["b"]] }

def colsC6 : List DbmlColumn :=
  [{ name := "a", type := "integer", pk := false }, { name := "b", type := "string", pk := false }]

def streamC6b : JsonStream :=
  { name := "t", properties := [("a", .node (some (Sum.inl "integer")) [])],
    source_defined_primary_key := some [["a"], ["b"]] }

def colsC6b : List DbmlColumn := [{ name := "a", type := "integer", pk := false }]

/-- C6 witness: the statement applied to a stream with primary key
`[["a"], ["b"]]` and both columns present (index built), and to one where only
`"a"` exists (fatal missing-PK-column error). -/
theorem C6_witness :
    (∃ table, buildTable streamC6 = Except.ok table ∧
      table.columns = colsC6 ∧
      (∀ c ∈ table.columns, c.pk = false) ∧
      ∃ ix, table.indexes = [ix] ∧ ix.pk = true ∧
        ix.subjects.map (fun c => c.name) =
          ([["a"], ["b"]] : List (List String)).map (fun key => key.headD "")) ∧
    buildTable streamC6b = Except.error "Unexpected error: missing PK column from dbml table" :=
  ⟨(C6_composite_primary_key streamC6 [["a"], ["b"]] rfl (by decide) (by decide) (by decide)).1
      colsC6 (by rfl) (by decide),
   (C6_composite_primary_key streamC6b [["a"], ["b"]] rfl (by decide) (by decide) (by decide)).2
      colsC6b (by rfl) (by decide)⟩

end ErdPipeline
